import Mathlib

/-
  Formal model of the AgentCore pricing-calculator core:
  the calculation engine and the validation and sanitization layer
  (pricing-utils, validation, calculation-engine modules).

  Numbers are modelled as exact rationals: JavaScript numbers are binary
  floating point, and this development uses the idealised exact-arithmetic
  semantics of the same expressions.  The builtin rounding operation
  Math.round x is modelled as the floor of x + 1/2, i.e. ties go toward
  positive infinity, following the ECMAScript definition.  Strings are
  modelled as lists of characters.  NaN, the infinities and absent record
  fields, which the source inspects through typeof and isFinite checks,
  are modelled by an explicit sum type of raw JavaScript values.
-/

namespace AgentCorePricing

/-- ECMAScript Math.round: floor of x + 1/2 (ties toward positive infinity). -/
def jsRound (x : ℚ) : ℚ := ((⌊x + 1/2⌋ : ℤ) : ℚ)

/-- roundToPrecision from pricing-utils:
Math.round (value * 10 ^ precision) / 10 ^ precision. -/
def roundToPrecision (value : ℚ) (precision : ℕ) : ℚ :=
  jsRound (value * 10 ^ precision) / 10 ^ precision

/-- PRICING_CONSTANTS.UNITS_PER_THOUSAND. -/
def UNITS_PER_THOUSAND : ℚ := 1000

/-- PRICING_CONSTANTS.CURRENCY_PRECISION. -/
def CURRENCY_PRECISION : ℕ := 4

/-- The fourteen billable dimensions of a usage record (the keys of the
UsageParameters interface). -/
inductive UsageField
  | runtimeCpuHours
  | runtimeMemoryGBHours
  | browserToolCpuHours
  | browserToolMemoryGBHours
  | codeInterpreterCpuHours
  | codeInterpreterMemoryGBHours
  | gatewayApiInvocations
  | gatewaySearchApiInvocations
  | gatewayToolIndexing
  | identityTokenRequests
  | memoryShortTermEvents
  | memoryLongTermStorageBuiltIn
  | memoryLongTermStorageCustom
  | memoryLongTermRetrievals
  deriving DecidableEq, Repr

/-- UsageParameters: one finite numeric value per billable dimension. -/
structure UsageParameters where
  runtimeCpuHours : ℚ
  runtimeMemoryGBHours : ℚ
  browserToolCpuHours : ℚ
  browserToolMemoryGBHours : ℚ
  codeInterpreterCpuHours : ℚ
  codeInterpreterMemoryGBHours : ℚ
  gatewayApiInvocations : ℚ
  gatewaySearchApiInvocations : ℚ
  gatewayToolIndexing : ℚ
  identityTokenRequests : ℚ
  memoryShortTermEvents : ℚ
  memoryLongTermStorageBuiltIn : ℚ
  memoryLongTermStorageCustom : ℚ
  memoryLongTermRetrievals : ℚ
  deriving DecidableEq, Repr

/-- Field projection of a usage record by field name. -/
def UsageParameters.get (u : UsageParameters) : UsageField → ℚ
  | .runtimeCpuHours => u.runtimeCpuHours
  | .runtimeMemoryGBHours => u.runtimeMemoryGBHours
  | .browserToolCpuHours => u.browserToolCpuHours
  | .browserToolMemoryGBHours => u.browserToolMemoryGBHours
  | .codeInterpreterCpuHours => u.codeInterpreterCpuHours
  | .codeInterpreterMemoryGBHours => u.codeInterpreterMemoryGBHours
  | .gatewayApiInvocations => u.gatewayApiInvocations
  | .gatewaySearchApiInvocations => u.gatewaySearchApiInvocations
  | .gatewayToolIndexing => u.gatewayToolIndexing
  | .identityTokenRequests => u.identityTokenRequests
  | .memoryShortTermEvents => u.memoryShortTermEvents
  | .memoryLongTermStorageBuiltIn => u.memoryLongTermStorageBuiltIn
  | .memoryLongTermStorageCustom => u.memoryLongTermStorageCustom
  | .memoryLongTermRetrievals => u.memoryLongTermRetrievals

/-- DEFAULT_USAGE: the all-zero usage record. -/
def DEFAULT_USAGE : UsageParameters :=
  ⟨0, 0, 0, 0, 0, 0, 0, 0, 0, 0, 0, 0, 0, 0⟩

/-- USAGE_LIMITS from pricing-utils. -/
def MIN_VALUE : ℚ := 0
def MAX_CPU_HOURS : ℚ := 100000
def MAX_MEMORY_GB_HOURS : ℚ := 1000000
def MAX_API_INVOCATIONS : ℚ := 1000000000
def MAX_TOOL_INDEXING : ℚ := 100000
def MAX_TOKEN_REQUESTS : ℚ := 1000000000

/-- isValidUsageValue from pricing-utils: non-negative and within the
per-field maximum of USAGE_LIMITS.  The default switch branch (false) is
unreachable because the field type is an enumeration here. -/
def isValidUsageValue (value : ℚ) (type : UsageField) : Bool :=
  if value < MIN_VALUE then false
  else
    match type with
    | .runtimeCpuHours | .browserToolCpuHours | .codeInterpreterCpuHours =>
        decide (value ≤ MAX_CPU_HOURS)
    | .runtimeMemoryGBHours | .browserToolMemoryGBHours
    | .codeInterpreterMemoryGBHours =>
        decide (value ≤ MAX_MEMORY_GB_HOURS)
    | .gatewayApiInvocations | .gatewaySearchApiInvocations
    | .identityTokenRequests | .memoryShortTermEvents
    | .memoryLongTermStorageBuiltIn | .memoryLongTermStorageCustom
    | .memoryLongTermRetrievals =>
        decide (value ≤ MAX_API_INVOCATIONS)
    | .gatewayToolIndexing =>
        decide (value ≤ MAX_TOOL_INDEXING)

/-- A raw JavaScript value as seen by sanitizeUsageParameters: a finite
number, NaN, an infinity, or something that is not a number at all
(undefined for an absent field, or a value of another type). -/
inductive JSVal
  | num (v : ℚ)
  | nan
  | posInf
  | negInf
  | undef
  deriving DecidableEq, Repr

/-- A Partial UsageParameters record: every field holds a raw value. -/
structure PartialUsage where
  runtimeCpuHours : JSVal
  runtimeMemoryGBHours : JSVal
  browserToolCpuHours : JSVal
  browserToolMemoryGBHours : JSVal
  codeInterpreterCpuHours : JSVal
  codeInterpreterMemoryGBHours : JSVal
  gatewayApiInvocations : JSVal
  gatewaySearchApiInvocations : JSVal
  gatewayToolIndexing : JSVal
  identityTokenRequests : JSVal
  memoryShortTermEvents : JSVal
  memoryLongTermStorageBuiltIn : JSVal
  memoryLongTermStorageCustom : JSVal
  memoryLongTermRetrievals : JSVal
  deriving DecidableEq, Repr

/-- Field projection of a partial usage record by field name. -/
def PartialUsage.get (u : PartialUsage) : UsageField → JSVal
  | .runtimeCpuHours => u.runtimeCpuHours
  | .runtimeMemoryGBHours => u.runtimeMemoryGBHours
  | .browserToolCpuHours => u.browserToolCpuHours
  | .browserToolMemoryGBHours => u.browserToolMemoryGBHours
  | .codeInterpreterCpuHours => u.codeInterpreterCpuHours
  | .codeInterpreterMemoryGBHours => u.codeInterpreterMemoryGBHours
  | .gatewayApiInvocations => u.gatewayApiInvocations
  | .gatewaySearchApiInvocations => u.gatewaySearchApiInvocations
  | .gatewayToolIndexing => u.gatewayToolIndexing
  | .identityTokenRequests => u.identityTokenRequests
  | .memoryShortTermEvents => u.memoryShortTermEvents
  | .memoryLongTermStorageBuiltIn => u.memoryLongTermStorageBuiltIn
  | .memoryLongTermStorageCustom => u.memoryLongTermStorageCustom
  | .memoryLongTermRetrievals => u.memoryLongTermRetrievals

/-- The per-field body of the sanitization loop in sanitizeUsageParameters:
if the raw value is a finite number, clamp it to the minimum and keep it
when isValidUsageValue accepts it, otherwise reset to 0; any other raw
value leaves the zero default in place. -/
def sanitizeField (raw : JSVal) (key : UsageField) : ℚ :=
  match raw with
  | .num v =>
      let clampedValue := max MIN_VALUE v
      if isValidUsageValue clampedValue key then clampedValue else 0
  | _ => 0

/-- sanitizeUsageParameters from pricing-utils: start from DEFAULT_USAGE
and run the sanitization loop over every key. -/
def sanitizeUsageParameters (usage : PartialUsage) : UsageParameters where
  runtimeCpuHours := sanitizeField usage.runtimeCpuHours .runtimeCpuHours
  runtimeMemoryGBHours :=
    sanitizeField usage.runtimeMemoryGBHours .runtimeMemoryGBHours
  browserToolCpuHours :=
    sanitizeField usage.browserToolCpuHours .browserToolCpuHours
  browserToolMemoryGBHours :=
    sanitizeField usage.browserToolMemoryGBHours .browserToolMemoryGBHours
  codeInterpreterCpuHours :=
    sanitizeField usage.codeInterpreterCpuHours .codeInterpreterCpuHours
  codeInterpreterMemoryGBHours :=
    sanitizeField usage.codeInterpreterMemoryGBHours .codeInterpreterMemoryGBHours
  gatewayApiInvocations :=
    sanitizeField usage.gatewayApiInvocations .gatewayApiInvocations
  gatewaySearchApiInvocations :=
    sanitizeField usage.gatewaySearchApiInvocations .gatewaySearchApiInvocations
  gatewayToolIndexing :=
    sanitizeField usage.gatewayToolIndexing .gatewayToolIndexing
  identityTokenRequests :=
    sanitizeField usage.identityTokenRequests .identityTokenRequests
  memoryShortTermEvents :=
    sanitizeField usage.memoryShortTermEvents .memoryShortTermEvents
  memoryLongTermStorageBuiltIn :=
    sanitizeField usage.memoryLongTermStorageBuiltIn .memoryLongTermStorageBuiltIn
  memoryLongTermStorageCustom :=
    sanitizeField usage.memoryLongTermStorageCustom .memoryLongTermStorageCustom
  memoryLongTermRetrievals :=
    sanitizeField usage.memoryLongTermRetrievals .memoryLongTermRetrievals

/-- View a complete usage record as a partial one (in the source,
UsageParameters is assignable to Partial UsageParameters: every field is
present and holds a finite number). -/
def usageToPartial (u : UsageParameters) : PartialUsage where
  runtimeCpuHours := .num u.runtimeCpuHours
  runtimeMemoryGBHours := .num u.runtimeMemoryGBHours
  browserToolCpuHours := .num u.browserToolCpuHours
  browserToolMemoryGBHours := .num u.browserToolMemoryGBHours
  codeInterpreterCpuHours := .num u.codeInterpreterCpuHours
  codeInterpreterMemoryGBHours := .num u.codeInterpreterMemoryGBHours
  gatewayApiInvocations := .num u.gatewayApiInvocations
  gatewaySearchApiInvocations := .num u.gatewaySearchApiInvocations
  gatewayToolIndexing := .num u.gatewayToolIndexing
  identityTokenRequests := .num u.identityTokenRequests
  memoryShortTermEvents := .num u.memoryShortTermEvents
  memoryLongTermStorageBuiltIn := .num u.memoryLongTermStorageBuiltIn
  memoryLongTermStorageCustom := .num u.memoryLongTermStorageCustom
  memoryLongTermRetrievals := .num u.memoryLongTermRetrievals

/-- PricingRates: the per-dimension rates of the configuration file.
The two metadata fields (lastUpdated, sourceUrl) are display strings never
read by the calculation engine and are omitted from the model. -/
structure PricingRates where
  runtimeCpuRate : ℚ
  runtimeMemoryRate : ℚ
  browserToolCpuRate : ℚ
  browserToolMemoryRate : ℚ
  codeInterpreterCpuRate : ℚ
  codeInterpreterMemoryRate : ℚ
  gatewayApiInvocationRate : ℚ
  gatewaySearchApiRate : ℚ
  gatewayToolIndexingRate : ℚ
  identityTokenRequestRate : ℚ
  memoryShortTermEventRate : ℚ
  memoryLongTermStorageBuiltInRate : ℚ
  memoryLongTermStorageCustomRate : ℚ
  memoryLongTermRetrievalRate : ℚ
  deriving DecidableEq, Repr

/-- BEDROCK_AGENTCORE_PRICING: the default rate table. -/
def BEDROCK_AGENTCORE_PRICING : PricingRates where
  runtimeCpuRate := 0.0895
  runtimeMemoryRate := 0.00945
  browserToolCpuRate := 0.0895
  browserToolMemoryRate := 0.00945
  codeInterpreterCpuRate := 0.0895
  codeInterpreterMemoryRate := 0.00945
  gatewayApiInvocationRate := 0.005
  gatewaySearchApiRate := 0.025
  gatewayToolIndexingRate := 0.02
  identityTokenRequestRate := 0.010
  memoryShortTermEventRate := 0.25
  memoryLongTermStorageBuiltInRate := 0.75
  memoryLongTermStorageCustomRate := 0.25
  memoryLongTermRetrievalRate := 0.50

/-- CostBreakdown: one cost per billable dimension plus the monthly total. -/
structure CostBreakdown where
  runtimeCpuCost : ℚ
  runtimeMemoryCost : ℚ
  browserToolCpuCost : ℚ
  browserToolMemoryCost : ℚ
  codeInterpreterCpuCost : ℚ
  codeInterpreterMemoryCost : ℚ
  gatewayApiInvocationsCost : ℚ
  gatewaySearchApiCost : ℚ
  gatewayToolIndexingCost : ℚ
  identityTokenRequestsCost : ℚ
  memoryShortTermEventsCost : ℚ
  memoryLongTermStorageBuiltInCost : ℚ
  memoryLongTermStorageCustomCost : ℚ
  memoryLongTermRetrievalsCost : ℚ
  totalMonthlyCost : ℚ
  deriving DecidableEq, Repr

/-- calculateCpuCost: zero for negative hours, otherwise hours times rate. -/
def calculateCpuCost (cpuHours rate : ℚ) : ℚ :=
  if cpuHours < 0 then 0 else cpuHours * rate

/-- calculateMemoryCost: zero for negative GB-hours, otherwise linear. -/
def calculateMemoryCost (memoryGBHours rate : ℚ) : ℚ :=
  if memoryGBHours < 0 then 0 else memoryGBHours * rate

/-- calculateApiInvocationsCost: zero for negative counts, otherwise the
count divided by 1000 times the per-1000 rate. -/
def calculateApiInvocationsCost (invocations rate : ℚ) : ℚ :=
  if invocations < 0 then 0 else invocations / UNITS_PER_THOUSAND * rate

/-- calculateToolIndexingCost: zero for negative counts, otherwise the
count divided by 100 times the per-100 rate. -/
def calculateToolIndexingCost (toolCount rate : ℚ) : ℚ :=
  if toolCount < 0 then 0 else toolCount / 100 * rate

/-- The unrounded per-field costs of calculateCostBreakdown, in source
declaration order.  The source merges an optional partial rate override
over the default table before computing; the merged table is the rates
argument here. -/
def rawCostList (usage : UsageParameters) (rates : PricingRates) : List ℚ :=
  [calculateCpuCost usage.runtimeCpuHours rates.runtimeCpuRate,
   calculateMemoryCost usage.runtimeMemoryGBHours rates.runtimeMemoryRate,
   calculateCpuCost usage.browserToolCpuHours rates.browserToolCpuRate,
   calculateMemoryCost usage.browserToolMemoryGBHours rates.browserToolMemoryRate,
   calculateCpuCost usage.codeInterpreterCpuHours rates.codeInterpreterCpuRate,
   calculateMemoryCost usage.codeInterpreterMemoryGBHours rates.codeInterpreterMemoryRate,
   calculateApiInvocationsCost usage.gatewayApiInvocations rates.gatewayApiInvocationRate,
   calculateApiInvocationsCost usage.gatewaySearchApiInvocations rates.gatewaySearchApiRate,
   calculateToolIndexingCost usage.gatewayToolIndexing rates.gatewayToolIndexingRate,
   calculateApiInvocationsCost usage.identityTokenRequests rates.identityTokenRequestRate,
   calculateApiInvocationsCost usage.memoryShortTermEvents rates.memoryShortTermEventRate,
   calculateApiInvocationsCost usage.memoryLongTermStorageBuiltIn rates.memoryLongTermStorageBuiltInRate,
   calculateApiInvocationsCost usage.memoryLongTermStorageCustom rates.memoryLongTermStorageCustomRate,
   calculateApiInvocationsCost usage.memoryLongTermRetrievals rates.memoryLongTermRetrievalRate]

/-- calculateCostBreakdown from pricing-utils: compute the unrounded
per-field costs, sum them, and round every field and the total to
CURRENCY_PRECISION decimal places. -/
def calculateCostBreakdown (usage : UsageParameters) (rates : PricingRates) :
    CostBreakdown :=
  let runtimeCpuCost := calculateCpuCost usage.runtimeCpuHours rates.runtimeCpuRate
  let runtimeMemoryCost :=
    calculateMemoryCost usage.runtimeMemoryGBHours rates.runtimeMemoryRate
  let browserToolCpuCost :=
    calculateCpuCost usage.browserToolCpuHours rates.browserToolCpuRate
  let browserToolMemoryCost :=
    calculateMemoryCost usage.browserToolMemoryGBHours rates.browserToolMemoryRate
  let codeInterpreterCpuCost :=
    calculateCpuCost usage.codeInterpreterCpuHours rates.codeInterpreterCpuRate
  let codeInterpreterMemoryCost :=
    calculateMemoryCost usage.codeInterpreterMemoryGBHours rates.codeInterpreterMemoryRate
  let gatewayApiInvocationsCost :=
    calculateApiInvocationsCost usage.gatewayApiInvocations rates.gatewayApiInvocationRate
  let gatewaySearchApiCost :=
    calculateApiInvocationsCost usage.gatewaySearchApiInvocations rates.gatewaySearchApiRate
  let gatewayToolIndexingCost :=
    calculateToolIndexingCost usage.gatewayToolIndexing rates.gatewayToolIndexingRate
  let identityTokenRequestsCost :=
    calculateApiInvocationsCost usage.identityTokenRequests rates.identityTokenRequestRate
  let memoryShortTermEventsCost :=
    calculateApiInvocationsCost usage.memoryShortTermEvents rates.memoryShortTermEventRate
  let memoryLongTermStorageBuiltInCost :=
    calculateApiInvocationsCost usage.memoryLongTermStorageBuiltIn rates.memoryLongTermStorageBuiltInRate
  let memoryLongTermStorageCustomCost :=
    calculateApiInvocationsCost usage.memoryLongTermStorageCustom rates.memoryLongTermStorageCustomRate
  let memoryLongTermRetrievalsCost :=
    calculateApiInvocationsCost usage.memoryLongTermRetrievals rates.memoryLongTermRetrievalRate
  let totalMonthlyCost := runtimeCpuCost + runtimeMemoryCost +
    browserToolCpuCost + browserToolMemoryCost + codeInterpreterCpuCost +
    codeInterpreterMemoryCost + gatewayApiInvocationsCost +
    gatewaySearchApiCost + gatewayToolIndexingCost +
    identityTokenRequestsCost + memoryShortTermEventsCost +
    memoryLongTermStorageBuiltInCost + memoryLongTermStorageCustomCost +
    memoryLongTermRetrievalsCost
  { runtimeCpuCost := roundToPrecision runtimeCpuCost CURRENCY_PRECISION
    runtimeMemoryCost := roundToPrecision runtimeMemoryCost CURRENCY_PRECISION
    browserToolCpuCost := roundToPrecision browserToolCpuCost CURRENCY_PRECISION
    browserToolMemoryCost := roundToPrecision browserToolMemoryCost CURRENCY_PRECISION
    codeInterpreterCpuCost := roundToPrecision codeInterpreterCpuCost CURRENCY_PRECISION
    codeInterpreterMemoryCost := roundToPrecision codeInterpreterMemoryCost CURRENCY_PRECISION
    gatewayApiInvocationsCost := roundToPrecision gatewayApiInvocationsCost CURRENCY_PRECISION
    gatewaySearchApiCost := roundToPrecision gatewaySearchApiCost CURRENCY_PRECISION
    gatewayToolIndexingCost := roundToPrecision gatewayToolIndexingCost CURRENCY_PRECISION
    identityTokenRequestsCost := roundToPrecision identityTokenRequestsCost CURRENCY_PRECISION
    memoryShortTermEventsCost := roundToPrecision memoryShortTermEventsCost CURRENCY_PRECISION
    memoryLongTermStorageBuiltInCost := roundToPrecision memoryLongTermStorageBuiltInCost CURRENCY_PRECISION
    memoryLongTermStorageCustomCost := roundToPrecision memoryLongTermStorageCustomCost CURRENCY_PRECISION
    memoryLongTermRetrievalsCost := roundToPrecision memoryLongTermRetrievalsCost CURRENCY_PRECISION
    totalMonthlyCost := roundToPrecision totalMonthlyCost CURRENCY_PRECISION }

/-- The fourteen per-field costs of a breakdown, in declaration order. -/
def breakdownCostValues (b : CostBreakdown) : List ℚ :=
  [b.runtimeCpuCost, b.runtimeMemoryCost, b.browserToolCpuCost,
   b.browserToolMemoryCost, b.codeInterpreterCpuCost,
   b.codeInterpreterMemoryCost, b.gatewayApiInvocationsCost,
   b.gatewaySearchApiCost, b.gatewayToolIndexingCost,
   b.identityTokenRequestsCost, b.memoryShortTermEventsCost,
   b.memoryLongTermStorageBuiltInCost, b.memoryLongTermStorageCustomCost,
   b.memoryLongTermRetrievalsCost]

/-- All fifteen numeric entries of a breakdown object, as enumerated by
Object.entries in validateCostBreakdown. -/
def breakdownEntries (b : CostBreakdown) : List ℚ :=
  breakdownCostValues b ++ [b.totalMonthlyCost]

/-- A pricing tier: marginal rate above a cumulative threshold. -/
structure PricingTier where
  threshold : ℚ
  rate : ℚ
  deriving DecidableEq, Repr

/-- The loop body of calculateTieredCost: walk the tier list carrying the
remaining usage and the accumulated cost.  The usage consumed at a tier is
the width to the next threshold (or everything left at the last tier); the
loop breaks when a tier consumes nothing or the usage is exhausted. -/
def tieredCostLoop : List PricingTier → ℚ → ℚ → ℚ
  | [], _, totalCost => totalCost
  | currentTier :: rest, remainingUsage, totalCost =>
      let tierUsage :=
        match rest with
        | nextTier :: _ => min remainingUsage (nextTier.threshold - currentTier.threshold)
        | [] => remainingUsage
      if tierUsage ≤ 0 then totalCost
      else
        let totalCost := totalCost + tierUsage / UNITS_PER_THOUSAND * currentTier.rate
        let remainingUsage := remainingUsage - tierUsage
        if remainingUsage ≤ 0 then totalCost
        else tieredCostLoop rest remainingUsage totalCost

/-- calculateTieredCost from pricing-utils: zero on non-positive usage or
an empty tier list, otherwise the tier walk starting from zero cost. -/
def calculateTieredCost (usage : ℚ) (tiers : List PricingTier) : ℚ :=
  if usage ≤ 0 ∨ tiers = [] then 0
  else tieredCostLoop tiers usage 0

/-- The warnings collected by validateCostBreakdown.  The source builds
human-readable strings; the model keeps the triggering entry index and
value instead of the formatted text. -/
inductive CostWarning
  | highCost (total : ℚ)
  | negativeCost (index : ℕ) (value : ℚ)
  deriving DecidableEq, Repr

/-- The high-cost sanity threshold of validateCostBreakdown. -/
def HIGH_COST_THRESHOLD : ℚ := 100000

/-- Result of validateCostBreakdown. -/
structure BreakdownValidation where
  isValid : Bool
  warnings : List CostWarning
  deriving DecidableEq, Repr

/-- validateCostBreakdown from pricing-utils: warn when the total exceeds
the high-cost threshold; mark the result invalid when any entry is
negative.  The second defensive loop of the source flags NaN or infinite
entries; a rational entry is always finite, so that loop contributes
nothing in the model. -/
def validateCostBreakdown (breakdown : CostBreakdown) : BreakdownValidation :=
  let entries := breakdownEntries breakdown
  let warnings :=
    (if HIGH_COST_THRESHOLD < breakdown.totalMonthlyCost
     then [CostWarning.highCost breakdown.totalMonthlyCost] else []) ++
    (entries.enum.filterMap fun p =>
      if p.2 < 0 then some (CostWarning.negativeCost p.1 p.2) else none)
  { isValid := entries.all fun v => decide (0 ≤ v)
    warnings := warnings }

/-
  Validation layer (validation module).
-/

/-- Error codes of VALIDATION_MESSAGES.  The source formats message
strings with the bound or place count substituted into a template; the
model carries the substituted parameter instead of the text. -/
inductive ValidationMessage
  | required
  | notANumber
  | negativeNumber
  | tooLarge (max : ℚ)
  | tooSmall (min : ℚ)
  | invalidDecimalPlaces (places : ℕ)
  deriving DecidableEq, Repr

/-- ValidationResult: validity flag plus optional error and parsed value. -/
structure ValidationResult where
  isValid : Bool
  errorMessage : Option ValidationMessage := none
  sanitizedValue : Option ℚ := none
  deriving DecidableEq, Repr

/-- A per-field constraint triple of VALIDATION_CONSTRAINTS. -/
structure FieldConstraint where
  min : ℚ
  max : ℚ
  maxDecimalPlaces : ℕ
  deriving DecidableEq, Repr

/-- VALIDATION_CONSTRAINTS from the validation module.  Note that the
count-like maxima here (one hundred million) differ from the larger
USAGE_LIMITS bounds used by sanitizeUsageParameters. -/
def VALIDATION_CONSTRAINTS : UsageField → FieldConstraint
  | .runtimeCpuHours => ⟨0, 100000, 2⟩
  | .runtimeMemoryGBHours => ⟨0, 1000000, 2⟩
  | .browserToolCpuHours => ⟨0, 100000, 2⟩
  | .browserToolMemoryGBHours => ⟨0, 1000000, 2⟩
  | .codeInterpreterCpuHours => ⟨0, 100000, 2⟩
  | .codeInterpreterMemoryGBHours => ⟨0, 1000000, 2⟩
  | .gatewayApiInvocations => ⟨0, 100000000, 0⟩
  | .gatewaySearchApiInvocations => ⟨0, 100000000, 0⟩
  | .gatewayToolIndexing => ⟨0, 100000, 0⟩
  | .identityTokenRequests => ⟨0, 100000000, 0⟩
  | .memoryShortTermEvents => ⟨0, 100000000, 0⟩
  | .memoryLongTermStorageBuiltIn => ⟨0, 100000000, 0⟩
  | .memoryLongTermStorageCustom => ⟨0, 100000000, 0⟩
  | .memoryLongTermRetrievals => ⟨0, 100000000, 0⟩

/-- The character class kept by sanitizeNumericInput: digits, the dot and
the minus sign. -/
def isNumericChar (c : Char) : Bool := c.isDigit || c == '.' || c == '-'

/-- First step of sanitizeNumericInput: drop every other character. -/
def jsCharFilter (s : List Char) : List Char := s.filter isNumericChar

/-- Second step of sanitizeNumericInput: keep only the first dot.  The
source splits at the first dot and deletes every dot after it. -/
def collapseDots : List Char → List Char
  | [] => []
  | c :: cs =>
      if c == '.' then c :: cs.filter (fun d => d != '.')
      else c :: collapseDots cs

/-- Third step of sanitizeNumericInput: when a minus sign is present,
remember whether the first character of the current (already filtered)
text is a minus, strip every minus, and re-attach one at the front in
that case. -/
def applyMinusRule (s : List Char) : List Char :=
  if s.contains '-' then
    let isNegative := s.head? == some '-'
    let stripped := s.filter (fun c => c != '-')
    if isNegative then '-' :: stripped else stripped
  else s

/-- sanitizeNumericInput from the validation module (text-level transform;
the typeof guard for non-string input does not arise in the model). -/
def sanitizeNumericInput (input : List Char) : List Char :=
  applyMinusRule (collapseDots (jsCharFilter input))

/-- Numeric value of a digit string, most significant digit first. -/
def digitsToNat (ds : List Char) : ℕ :=
  ds.foldl (fun acc c => 10 * acc + (c.toNat - 48)) 0

/-- parseFloat restricted to the shape sanitizeNumericInput produces: an
optional leading minus, then digits with at most one dot.  When not a
single digit is present parseFloat yields NaN, modelled as none;
otherwise the result is the exact rational the digit string denotes,
namely the concatenated digits over ten to the number of fractional
digits, negated under a leading minus. -/
def parseFloatSanitized (s : List Char) : Option ℚ :=
  let intext := match s with
    | '-' :: t => (true, t)
    | _ => (false, s)
  let rest := intext.2
  let intDigits := rest.takeWhile Char.isDigit
  let afterInt := rest.drop intDigits.length
  let fracDigits := match afterInt with
    | '.' :: t => t.takeWhile Char.isDigit
    | _ => []
  if intDigits.isEmpty && fracDigits.isEmpty then none
  else
    let magnitude : ℚ :=
      mkRat (digitsToNat (intDigits ++ fracDigits)) (10 ^ fracDigits.length)
    some (if intext.1 then -magnitude else magnitude)

/-- parseNumericInput from the validation module: sanitize, reject the
empty string, a lone minus or a lone dot, then parse. -/
def parseNumericInput (input : List Char) : Option ℚ :=
  let sanitized := sanitizeNumericInput input
  if sanitized = [] ∨ sanitized = ['-'] ∨ sanitized = ['.'] then none
  else parseFloatSanitized sanitized

/-- Whitespace removed by the trim calls of validateNumericInput. -/
def isJsWhitespace (c : Char) : Bool :=
  c == ' ' || c == '\t' || c == '\n' || c == '\r'

/-- JavaScript String.prototype.trim on a character list. -/
def jsTrim (s : List Char) : List Char :=
  ((s.dropWhile isJsWhitespace).reverse.dropWhile isJsWhitespace).reverse

/-- Bounded linear search for the first natural number from a given start
satisfying a condition, with an explicit step budget. -/
def searchFirst (cond : ℕ → Bool) : ℕ → ℕ → Option ℕ
  | 0, _ => none
  | fuel + 1, start =>
      if cond start then some start else searchFirst cond fuel (start + 1)

/-- Smallest exponent below the search bound whose power of ten clears the
denominator, i.e. the number of digits after the dot in the canonical
decimal expansion.  IEEE doubles have at most 1074 fractional digits, so
the bound 1200 covers every value a JavaScript number can take; none is
returned only on rationals outside the double-representable set. -/
def minDecExponent (x : ℚ) : Option ℕ :=
  searchFirst (fun p => 10 ^ p % x.den == 0) 1200 0

/-- Number of decimal digits of a natural number (1 for zero), via the
smallest power of ten exceeding it. -/
def numDigits (m : ℕ) : ℕ :=
  match searchFirst (fun k => decide (m < 10 ^ (k + 1))) 1200 0 with
  | some k => k + 1
  | none => 1200

/-- Number of trailing zero digits of a natural number. -/
def trailingZeroCount (m : ℕ) : ℕ :=
  match searchFirst (fun t => decide (m / 10 ^ t % 10 ≠ 0)) 1200 0 with
  | some t => t
  | none => 0

/-- countDecimalPlaces from the validation module: zero for an integral
value, otherwise the count of characters after the dot in
value.toString().  The string conversion is modelled by the ECMAScript
Number::toString algorithm on the exact value: with k significant digits
and the decimal point at position n, fixed-point notation is used when
-6 < n ≤ 21 (giving p - t fractional digits, where 10 ^ p clears the
denominator and t counts trailing zeros of the scaled mantissa), and
exponential notation otherwise, which contains no dot for a single
significant digit and otherwise puts the dot after the first digit,
followed by the remaining k - 1 digits, the letter e, an explicit sign
and the digits of the exponent n - 1. -/
def countDecimalPlaces (value : ℚ) : ℕ :=
  if value.den = 1 then 0
  else
    match minDecExponent value with
    | none => 0
    | some p =>
        let m := value.num.natAbs * 10 ^ p / value.den
        let t := trailingZeroCount m
        let k := numDigits (m / 10 ^ t)
        let n : ℤ := (k : ℤ) + (t : ℤ) - (p : ℤ)
        if -6 < n ∧ n ≤ 21 then p - t
        else if k = 1 then 0
        else k + 1 + numDigits (n - 1).natAbs

/-- validateNumericInput from the validation module: required and empty
checks on the trimmed text, parse, then the negative, minimum, maximum
and decimal-place checks against the per-field constraints. -/
def validateNumericInput (input : List Char) (constraintKey : UsageField)
    (isRequired : Bool := false) : ValidationResult :=
  if isRequired && (jsTrim input).isEmpty then
    { isValid := false, errorMessage := some .required }
  else if (jsTrim input).isEmpty then
    { isValid := true, sanitizedValue := some 0 }
  else
    match parseNumericInput input with
    | none => { isValid := false, errorMessage := some .notANumber }
    | some parsedValue =>
        let constraints := VALIDATION_CONSTRAINTS constraintKey
        if parsedValue < 0 then
          { isValid := false, errorMessage := some .negativeNumber }
        else if parsedValue < constraints.min then
          { isValid := false, errorMessage := some (.tooSmall constraints.min) }
        else if constraints.max < parsedValue then
          { isValid := false, errorMessage := some (.tooLarge constraints.max) }
        else if constraints.maxDecimalPlaces < countDecimalPlaces parsedValue then
          { isValid := false
            errorMessage := some (.invalidDecimalPlaces constraints.maxDecimalPlaces) }
        else
          { isValid := true, sanitizedValue := some parsedValue }

/-
  Break-even search (calculation-engine module).
-/

/-- The synthetic usage record the break-even search evaluates at a trial
invocation count: a tenth of a CPU hour and half a GB-hour per
invocation, plus one gateway API invocation each. -/
def breakEvenUsage (mid : ℕ) : UsageParameters where
  runtimeCpuHours := (mid : ℚ) * 0.1
  runtimeMemoryGBHours := (mid : ℚ) * 0.5
  browserToolCpuHours := 0
  browserToolMemoryGBHours := 0
  codeInterpreterCpuHours := 0
  codeInterpreterMemoryGBHours := 0
  gatewayApiInvocations := (mid : ℚ)
  gatewaySearchApiInvocations := 0
  gatewayToolIndexing := 0
  identityTokenRequests := 0
  memoryShortTermEvents := 0
  memoryLongTermStorageBuiltIn := 0
  memoryLongTermStorageCustom := 0
  memoryLongTermRetrievals := 0

/-- The while loop of findBreakEvenPoint: binary search on the invocation
count, returning the midpoint when the profit is within a cent of the
target and the final low bound when the interval or the iteration budget
runs out.  The third argument counts the iterations still allowed. -/
def findBreakEvenLoop (fixedCosts revenuePerInvocation targetProfit : ℚ) :
    ℕ → ℕ → ℕ → ℕ
  | low, _, 0 => low
  | low, high, fuel + 1 =>
      if low < high then
        let mid := (low + high) / 2
        let costs := calculateCostBreakdown (breakEvenUsage mid) BEDROCK_AGENTCORE_PRICING
        let profit := (mid : ℚ) * revenuePerInvocation - costs.totalMonthlyCost - fixedCosts
        if |profit - targetProfit| < 1/100 then mid
        else if profit < targetProfit then
          findBreakEvenLoop fixedCosts revenuePerInvocation targetProfit (mid + 1) high fuel
        else
          findBreakEvenLoop fixedCosts revenuePerInvocation targetProfit low mid fuel
      else low

/-- findBreakEvenPoint from calculateBreakEvenAnalysis: search the
integer interval up to ten million invocations for at most fifty
iterations. -/
def findBreakEvenPoint (fixedCosts revenuePerInvocation targetProfit : ℚ) : ℕ :=
  findBreakEvenLoop fixedCosts revenuePerInvocation targetProfit 0 10000000 50

/-- Result record of calculateBreakEvenAnalysis. -/
structure BreakEvenAnalysis where
  breakEvenInvocations : ℕ
  profitableAt10k : ℕ
  monthlyFixedCosts : ℚ
  revenuePerInvocation : ℚ
  deriving DecidableEq, Repr

/-- calculateBreakEvenAnalysis from the calculation-engine module. -/
def calculateBreakEvenAnalysis (fixedCosts revenuePerInvocation : ℚ) :
    BreakEvenAnalysis where
  breakEvenInvocations := findBreakEvenPoint fixedCosts revenuePerInvocation 0
  profitableAt10k := findBreakEvenPoint fixedCosts revenuePerInvocation 10000
  monthlyFixedCosts := fixedCosts
  revenuePerInvocation := revenuePerInvocation

/-
  Auxiliary definitions used by the theorem statements.
-/

/-- The per-field upper bound of USAGE_LIMITS as dispatched by
isValidUsageValue, spelled out as one table for use in statements. -/
def usageLimit : UsageField → ℚ
  | .runtimeCpuHours | .browserToolCpuHours | .codeInterpreterCpuHours =>
      MAX_CPU_HOURS
  | .runtimeMemoryGBHours | .browserToolMemoryGBHours
  | .codeInterpreterMemoryGBHours => MAX_MEMORY_GB_HOURS
  | .gatewayApiInvocations | .gatewaySearchApiInvocations
  | .identityTokenRequests | .memoryShortTermEvents
  | .memoryLongTermStorageBuiltIn | .memoryLongTermStorageCustom
  | .memoryLongTermRetrievals => MAX_API_INVOCATIONS
  | .gatewayToolIndexing => MAX_TOOL_INDEXING

/-- Rounding to the nearest integer with ties away from zero, following
the words of the specification of roundToPrecision (written for
comparison with the behaviour of the source, which uses Math.round). -/
def specRoundHalfAwayFromZero (q : ℚ) : ℤ :=
  if 0 ≤ q then ⌊q + 1/2⌋ else -⌊-q + 1/2⌋

/-- A usage record on which the total of calculateCostBreakdown differs
from the rounded sum of the rounded per-field costs: two count fields
whose raw costs are half of the smallest representable rounding step. -/
def usageHalfStep : UsageParameters :=
  { DEFAULT_USAGE with gatewayApiInvocations := 10, identityTokenRequests := 5 }

/-
  Helper lemmas.
-/

/-- Rounding a non-negative value is non-negative. -/
lemma roundToPrecision_nonneg {x : ℚ} (p : ℕ) (hx : 0 ≤ x) :
    0 ≤ roundToPrecision x p := by
  unfold roundToPrecision jsRound
  apply div_nonneg _ (by positivity)
  have h : (0 : ℤ) ≤ ⌊x * 10 ^ p + 1/2⌋ := by
    have h0 : (0 : ℚ) ≤ x * 10 ^ p + 1/2 := by positivity
    calc (0 : ℤ) = ⌊(0 : ℚ)⌋ := by simp
    _ ≤ ⌊x * 10 ^ p + 1/2⌋ := Int.floor_le_floor h0
  exact_mod_cast h

/-- Rounding never exceeds the value by more than half a rounding step. -/
lemma roundToPrecision_le (x : ℚ) :
    roundToPrecision x 4 ≤ x + 1/20000 := by
  unfold roundToPrecision jsRound
  rw [div_le_iff₀ (by norm_num : (0 : ℚ) < 10 ^ (4 : ℕ))]
  have h : ((⌊x * 10 ^ (4 : ℕ) + 1/2⌋ : ℤ) : ℚ) ≤ x * 10 ^ (4 : ℕ) + 1/2 :=
    Int.floor_le _
  calc ((⌊x * 10 ^ (4 : ℕ) + 1/2⌋ : ℤ) : ℚ) ≤ x * 10 ^ (4 : ℕ) + 1/2 := h
  _ = (x + 1/20000) * 10 ^ (4 : ℕ) := by ring
  _ ≤ (x + 1/20000) * 10 ^ (4 : ℕ) := le_refl _

/-- calculateCpuCost is non-negative whenever the rate is. -/
lemma calculateCpuCost_nonneg (h rate : ℚ) (hr : 0 ≤ rate) :
    0 ≤ calculateCpuCost h rate := by
  unfold calculateCpuCost
  by_cases hh : h < 0
  · simp [hh]
  · simp [hh]; exact mul_nonneg (not_lt.mp hh) hr

/-- calculateMemoryCost is non-negative whenever the rate is. -/
lemma calculateMemoryCost_nonneg (h rate : ℚ) (hr : 0 ≤ rate) :
    0 ≤ calculateMemoryCost h rate := by
  unfold calculateMemoryCost
  by_cases hh : h < 0
  · simp [hh]
  · simp [hh]; exact mul_nonneg (not_lt.mp hh) hr

/-- calculateApiInvocationsCost is non-negative whenever the rate is. -/
lemma calculateApiInvocationsCost_nonneg (h rate : ℚ) (hr : 0 ≤ rate) :
    0 ≤ calculateApiInvocationsCost h rate := by
  unfold calculateApiInvocationsCost
  by_cases hh : h < 0
  · simp [hh]
  · simp [hh]
    exact mul_nonneg (div_nonneg (not_lt.mp hh) (by norm_num [UNITS_PER_THOUSAND])) hr

/-- calculateToolIndexingCost is non-negative whenever the rate is. -/
lemma calculateToolIndexingCost_nonneg (h rate : ℚ) (hr : 0 ≤ rate) :
    0 ≤ calculateToolIndexingCost h rate := by
  unfold calculateToolIndexingCost
  by_cases hh : h < 0
  · simp [hh]
  · simp [hh]
    exact mul_nonneg (div_nonneg (not_lt.mp hh) (by norm_num)) hr

/-- The per-field costs of a breakdown are the rounded raw costs. -/
lemma breakdownCostValues_eq (u : UsageParameters) (rates : PricingRates) :
    breakdownCostValues (calculateCostBreakdown u rates)
      = (rawCostList u rates).map fun c => roundToPrecision c CURRENCY_PRECISION := by
  simp [breakdownCostValues, calculateCostBreakdown, rawCostList]

/-- The total of a breakdown is the rounded sum of the raw costs. -/
lemma totalMonthlyCost_eq (u : UsageParameters) (rates : PricingRates) :
    (calculateCostBreakdown u rates).totalMonthlyCost
      = roundToPrecision (rawCostList u rates).sum CURRENCY_PRECISION := by
  simp only [calculateCostBreakdown, rawCostList, List.sum_cons, List.sum_nil]
  congr 1
  ring

/-
  Claims.
-/

/-- C1.  Each per-field cost of calculateCostBreakdown is the raw cost
rounded to 4 decimal places, and totalMonthlyCost is the sum of the
UNROUNDED per-field costs, rounded to 4 decimal places.  (The claim as
frozen instead sums the rounded per-field costs; see the
counterexample.) -/
theorem calculateCostBreakdown_rounding (u : UsageParameters) (rates : PricingRates) :
    breakdownCostValues (calculateCostBreakdown u rates)
        = ((rawCostList u rates).map fun c => roundToPrecision c CURRENCY_PRECISION)
      ∧ (calculateCostBreakdown u rates).totalMonthlyCost
        = roundToPrecision (rawCostList u rates).sum CURRENCY_PRECISION :=
  ⟨breakdownCostValues_eq u rates, totalMonthlyCost_eq u rates⟩

/-- C1, counterexample.  On a record with ten gateway API invocations and
five identity token requests (raw costs 0.00005 each, both rounding up to
0.0001), the total computed by the source is 0.0001, while the rounded
sum of the rounded per-field costs is 0.0002. -/
theorem calculateCostBreakdown_total_ne_sum_of_rounded :
    (calculateCostBreakdown usageHalfStep BEDROCK_AGENTCORE_PRICING).totalMonthlyCost
      ≠ roundToPrecision
          ((breakdownCostValues
            (calculateCostBreakdown usageHalfStep BEDROCK_AGENTCORE_PRICING)).sum)
          CURRENCY_PRECISION := by
  have h1 :
      (calculateCostBreakdown usageHalfStep BEDROCK_AGENTCORE_PRICING).totalMonthlyCost
        = 1/10000 := by
    simp [calculateCostBreakdown, calculateCpuCost, calculateMemoryCost,
      calculateApiInvocationsCost, calculateToolIndexingCost, roundToPrecision, jsRound,
      BEDROCK_AGENTCORE_PRICING, usageHalfStep, DEFAULT_USAGE, UNITS_PER_THOUSAND,
      CURRENCY_PRECISION]
    norm_num
  have h2 :
      roundToPrecision
          ((breakdownCostValues
            (calculateCostBreakdown usageHalfStep BEDROCK_AGENTCORE_PRICING)).sum)
          CURRENCY_PRECISION = 2/10000 := by
    simp [calculateCostBreakdown, calculateCpuCost, calculateMemoryCost,
      calculateApiInvocationsCost, calculateToolIndexingCost, roundToPrecision, jsRound,
      BEDROCK_AGENTCORE_PRICING, usageHalfStep, DEFAULT_USAGE, UNITS_PER_THOUSAND,
      CURRENCY_PRECISION, breakdownCostValues]
    norm_num
  rw [h1, h2]
  norm_num

/-- C2.  On any sanitized input, the breakdown computed with the default
rate table passes validateCostBreakdown: every entry is non-negative (and,
rationals being finite, never NaN or infinite), so the defensive invalid
branch is unreachable. -/
theorem validateCostBreakdown_of_sanitized (x : PartialUsage) :
    (validateCostBreakdown
      (calculateCostBreakdown (sanitizeUsageParameters x)
        BEDROCK_AGENTCORE_PRICING)).isValid = true := by
  have hraw :
      ∀ c ∈ rawCostList (sanitizeUsageParameters x) BEDROCK_AGENTCORE_PRICING,
        0 ≤ c := by
    simp only [rawCostList, BEDROCK_AGENTCORE_PRICING, List.forall_mem_cons,
      List.not_mem_nil, false_implies, implies_true, and_true]
    exact ⟨calculateCpuCost_nonneg _ _ (by norm_num),
      calculateMemoryCost_nonneg _ _ (by norm_num),
      calculateCpuCost_nonneg _ _ (by norm_num),
      calculateMemoryCost_nonneg _ _ (by norm_num),
      calculateCpuCost_nonneg _ _ (by norm_num),
      calculateMemoryCost_nonneg _ _ (by norm_num),
      calculateApiInvocationsCost_nonneg _ _ (by norm_num),
      calculateApiInvocationsCost_nonneg _ _ (by norm_num),
      calculateToolIndexingCost_nonneg _ _ (by norm_num),
      calculateApiInvocationsCost_nonneg _ _ (by norm_num),
      calculateApiInvocationsCost_nonneg _ _ (by norm_num),
      calculateApiInvocationsCost_nonneg _ _ (by norm_num),
      calculateApiInvocationsCost_nonneg _ _ (by norm_num),
      calculateApiInvocationsCost_nonneg _ _ (by norm_num)⟩
  simp only [validateCostBreakdown, breakdownEntries]
  rw [breakdownCostValues_eq, totalMonthlyCost_eq, List.all_eq_true]
  intro v hv
  simp only [List.mem_append, List.mem_map, List.mem_singleton] at hv
  simp only [decide_eq_true_eq]
  rcases hv with ⟨c, hc, rfl⟩ | rfl
  · exact roundToPrecision_nonneg _ (hraw c hc)
  · exact roundToPrecision_nonneg _ (List.sum_nonneg hraw)

/-- isValidUsageValue accepts exactly the values between zero and the
per-field limit. -/
lemma isValidUsageValue_iff (v : ℚ) (f : UsageField) :
    isValidUsageValue v f = true ↔ 0 ≤ v ∧ v ≤ usageLimit f := by
  unfold isValidUsageValue
  by_cases h : v < MIN_VALUE
  · simp only [if_pos h, Bool.false_eq_true, false_iff, not_and, not_le]
    intro h0
    simp only [MIN_VALUE] at h
    exact absurd h0 (not_le.mpr h)
  · rw [if_neg h]
    simp only [MIN_VALUE, not_lt] at h
    cases f <;> simp [usageLimit, h]

/-- The sanitization loop body, phrased through the bound table: a finite
number is clamped to be non-negative and kept exactly when the clamped
value is within the per-field limit; every other raw value gives zero. -/
lemma sanitizeField_spec (raw : JSVal) (f : UsageField) :
    sanitizeField raw f =
      match raw with
      | .num v => if max 0 v ≤ usageLimit f then max 0 v else 0
      | _ => 0 := by
  cases raw with
  | num v =>
      simp only [sanitizeField, MIN_VALUE]
      by_cases h : max 0 v ≤ usageLimit f
      · rw [if_pos ((isValidUsageValue_iff _ f).mpr ⟨le_max_left 0 v, h⟩), if_pos h]
      · rw [if_neg, if_neg h]
        intro hcontra
        exact h ((isValidUsageValue_iff _ f).mp hcontra).2
  | nan => rfl
  | posInf => rfl
  | negInf => rfl
  | undef => rfl

/-- Every per-field limit is non-negative. -/
lemma usageLimit_nonneg (f : UsageField) : 0 ≤ usageLimit f := by
  cases f <;> norm_num [usageLimit, MAX_CPU_HOURS, MAX_MEMORY_GB_HOURS,
    MAX_API_INVOCATIONS, MAX_TOOL_INDEXING]

/-- The sanitization loop body never produces a negative value. -/
lemma sanitizeField_nonneg (raw : JSVal) (f : UsageField) :
    0 ≤ sanitizeField raw f := by
  cases raw <;> simp only [sanitizeField, MIN_VALUE] <;> try exact le_refl 0
  case num v =>
    split
    · exact le_max_left 0 v
    · exact le_refl 0

/-- The sanitization loop body never exceeds the per-field limit. -/
lemma sanitizeField_le (raw : JSVal) (f : UsageField) :
    sanitizeField raw f ≤ usageLimit f := by
  cases raw <;> simp only [sanitizeField] <;> try exact usageLimit_nonneg f
  case num v =>
    split
    · next h => exact ((isValidUsageValue_iff _ f).mp h).2
    · exact usageLimit_nonneg f

/-- Sanitizing a value that already went through the loop body changes
nothing. -/
lemma sanitizeField_idem (raw : JSVal) (f : UsageField) :
    sanitizeField (.num (sanitizeField raw f)) f = sanitizeField raw f := by
  have h0 : 0 ≤ sanitizeField raw f := sanitizeField_nonneg raw f
  have h1 : sanitizeField raw f ≤ usageLimit f := sanitizeField_le raw f
  conv_lhs => rw [sanitizeField]
  rw [show max MIN_VALUE (sanitizeField raw f) = sanitizeField raw f from
    max_eq_right (by simpa [MIN_VALUE] using h0)]
  rw [if_pos ((isValidUsageValue_iff _ f).mpr ⟨h0, h1⟩)]

/-- C3.  sanitizeUsageParameters is total and field-wise: a field present
as a finite number is clamped to be non-negative and kept exactly when
the clamped value is within the per-field upper bound of USAGE_LIMITS,
otherwise set to zero; a field that is absent, non-numeric or non-finite
comes out as zero; every known field of the output is populated (the
output is a complete record by construction). -/
theorem sanitizeUsageParameters_spec (usage : PartialUsage) (f : UsageField) :
    (sanitizeUsageParameters usage).get f =
      match usage.get f with
      | .num v => if max 0 v ≤ usageLimit f then max 0 v else 0
      | _ => 0 := by
  cases f <;>
    simp only [sanitizeUsageParameters, UsageParameters.get, PartialUsage.get] <;>
    exact sanitizeField_spec _ _

/-- C7.  sanitizeUsageParameters is idempotent: feeding its own output
back in (as the complete partial record it is) returns the same record. -/
theorem sanitizeUsageParameters_idem (x : PartialUsage) :
    sanitizeUsageParameters (usageToPartial (sanitizeUsageParameters x))
      = sanitizeUsageParameters x := by
  simp only [sanitizeUsageParameters, usageToPartial, sanitizeField_idem]

/-- C4 (amended).  roundToPrecision multiplies by ten to the given power,
rounds the scaled value to the nearest integer with ties toward positive
infinity — which agrees with ties away from zero on every non-negative
value — and divides back down; in particular roundToPrecision 1.235 2 is
1.24 in exact arithmetic.  (The claim as frozen asserts ties away from
zero for all values; see the counterexample on a negative tie.) -/
theorem roundToPrecision_spec :
    (∀ (value : ℚ) (places : ℕ), 0 ≤ value →
        roundToPrecision value places
          = (specRoundHalfAwayFromZero (value * 10 ^ places) : ℚ) / 10 ^ places)
      ∧ roundToPrecision (1.235 : ℚ) 2 = 1.24 := by
  constructor
  · intro value places h
    have h2 : (0 : ℚ) ≤ value * 10 ^ places := by positivity
    simp only [roundToPrecision, jsRound, specRoundHalfAwayFromZero, if_pos h2]
  · simp only [roundToPrecision, jsRound]
    norm_num

/-- C4, witness for the amended rounding description at value 3/2 and one
decimal place. -/
theorem roundToPrecision_spec_witness :
    0 ≤ (3/2 : ℚ)
      ∧ roundToPrecision (3/2 : ℚ) 1
        = (specRoundHalfAwayFromZero ((3/2 : ℚ) * 10 ^ 1) : ℚ) / 10 ^ 1 :=
  ⟨by norm_num, roundToPrecision_spec.1 (3/2) 1 (by norm_num)⟩

/-- C4, counterexample.  On the negative tie -0.005 at two places,
Math.round (ties toward positive infinity) gives 0, while rounding ties
away from zero would give -0.01. -/
theorem roundToPrecision_negative_tie :
    roundToPrecision (-(1/200) : ℚ) 2
      ≠ (specRoundHalfAwayFromZero ((-(1/200) : ℚ) * 10 ^ 2) : ℚ) / 10 ^ 2 := by
  simp only [roundToPrecision, jsRound, specRoundHalfAwayFromZero]
  norm_num

/-- C8.  On the single flat tier with threshold zero and rate R, the
tiered cost of any non-negative usage equals the per-1000 count cost; on
non-positive usage or an empty tier list the tiered cost is zero. -/
theorem calculateTieredCost_spec :
    (∀ usage R : ℚ, 0 ≤ usage →
        calculateTieredCost usage [⟨0, R⟩] = calculateApiInvocationsCost usage R)
      ∧ (∀ (usage : ℚ) (tiers : List PricingTier), usage ≤ 0 →
          calculateTieredCost usage tiers = 0)
      ∧ ∀ usage : ℚ, calculateTieredCost usage [] = 0 := by
  refine ⟨?_, ?_, ?_⟩
  · intro u R hu
    by_cases h0 : u ≤ 0
    · have hz : u = 0 := le_antisymm h0 hu
      subst hz
      simp [calculateTieredCost, calculateApiInvocationsCost]
    · simp [calculateTieredCost, tieredCostLoop, h0, calculateApiInvocationsCost,
        not_lt.mpr hu, sub_self]
  · intro u tiers h
    simp [calculateTieredCost, h]
  · intro u
    simp [calculateTieredCost]

/-- C8, witness: a flat tier at usage 2000 and rate 5, and a negative
usage with a two-tier table. -/
theorem calculateTieredCost_spec_witness :
    (0 ≤ (2000 : ℚ)
      ∧ calculateTieredCost 2000 [⟨0, 5⟩] = calculateApiInvocationsCost 2000 5)
      ∧ ((-3 : ℚ) ≤ 0 ∧ calculateTieredCost (-3) [⟨0, 7⟩, ⟨10, 9⟩] = 0) :=
  ⟨⟨by norm_num, calculateTieredCost_spec.1 2000 5 (by norm_num)⟩,
   ⟨by norm_num, calculateTieredCost_spec.2.1 (-3) _ (by norm_num)⟩⟩

/-- C9.  Against the runtimeCpuHours constraint (at most two decimal
places), the text 123.456 is rejected with the decimal-place error and
the text 123.45 is accepted with value 123.45. -/
theorem validateNumericInput_decimalPlaces :
    validateNumericInput ['1', '2', '3', '.', '4', '5', '6'] .runtimeCpuHours false
        = { isValid := false, errorMessage := some (.invalidDecimalPlaces 2),
            sanitizedValue := none }
      ∧ validateNumericInput ['1', '2', '3', '.', '4', '5'] .runtimeCpuHours false
        = { isValid := true, errorMessage := none,
            sanitizedValue := some (123.45 : ℚ) } := by
  constructor
  · decide
  · rw [show (123.45 : ℚ) = mkRat 12345 100 by norm_num]
    decide

/-- C10.  The non-integer input 0.0000001 parses to a value whose
ECMAScript string rendering is exponential (1e-7), so countDecimalPlaces
reports zero decimal places and validateNumericInput accepts the text as
valid for gatewayApiInvocations even though that field allows zero
decimal places. -/
theorem countDecimalPlaces_exponential :
    countDecimalPlaces (0.0000001 : ℚ) = 0
      ∧ (0.0000001 : ℚ).den ≠ 1
      ∧ (VALIDATION_CONSTRAINTS .gatewayApiInvocations).maxDecimalPlaces = 0
      ∧ validateNumericInput ['0', '.', '0', '0', '0', '0', '0', '0', '1']
            .gatewayApiInvocations false
        = { isValid := true, errorMessage := none,
            sanitizedValue := some (0.0000001 : ℚ) } := by
  rw [show (0.0000001 : ℚ) = mkRat 1 10000000 by norm_num]
  exact ⟨by decide, by decide, by decide, by decide⟩

/-- Collapsing dots never changes the first character. -/
lemma collapseDots_head (l : List Char) : (collapseDots l).head? = l.head? := by
  cases l with
  | nil => rfl
  | cons c cs =>
      simp only [collapseDots]
      split <;> rfl

/-- Collapsing dots never adds or removes a minus sign. -/
lemma minus_mem_collapseDots (l : List Char) :
    '-' ∈ collapseDots l ↔ '-' ∈ l := by
  induction l with
  | nil => simp [collapseDots]
  | cons c cs ih =>
      simp only [collapseDots]
      split
      · simp [List.mem_filter]
      · simp [ih]

/-- C5 (amended).  sanitizeNumericInput keeps at most one minus sign,
keeps it at the front, and keeps it exactly when the first character of
the input that survives the character filter (digit, dot or minus) is a
minus — not, as the claim as frozen states, when a minus is the very
first character of the original input; see the counterexample. -/
theorem sanitizeNumericInput_minus (s : List Char) :
    (sanitizeNumericInput s).count '-' ≤ 1
      ∧ ((sanitizeNumericInput s).head? = some '-'
           ↔ (jsCharFilter s).head? = some '-')
      ∧ '-' ∉ (sanitizeNumericInput s).tail := by
  unfold sanitizeNumericInput applyMinusRule
  set l := collapseDots (jsCharFilter s) with hl
  by_cases hc : l.contains '-'
  · rw [if_pos hc]
    by_cases hn : l.head? = some '-'
    · rw [if_pos (by simpa using hn)]
      have hcount : (l.filter fun c => c != '-').count '-' = 0 := by
        simp [List.count_eq_zero, List.mem_filter]
      refine ⟨?_, ?_, ?_⟩
      · simp [List.count_cons, hcount]
      · simp only [List.head?_cons]
        rw [hl, collapseDots_head] at hn
        simp [hn]
      · simp [List.mem_filter]
    · rw [if_neg (by simpa using hn)]
      refine ⟨?_, ?_, ?_⟩
      · have hcount : (l.filter fun c => c != '-').count '-' = 0 := by
          simp [List.count_eq_zero, List.mem_filter]
        simp [hcount]
      · constructor
        · intro h
          have hmem : '-' ∈ l.filter fun c => c != '-' :=
            List.mem_of_mem_head? (by simp [h])
          simp [List.mem_filter] at hmem
        · intro h
          rw [hl, collapseDots_head] at hn
          exact absurd h hn
      · intro h
        have hmem := List.mem_of_mem_tail h
        simp [List.mem_filter] at hmem
  · rw [if_neg hc]
    have hml : '-' ∉ l := by
      intro hm
      exact hc (List.elem_iff.mpr hm)
    refine ⟨?_, ?_, ?_⟩
    · simp [List.count_eq_zero.mpr hml]
    · rw [hl, collapseDots_head]
    · intro h
      exact hml (List.mem_of_mem_tail h)

/-- C5, counterexample.  On the input a-5 the filter leaves -5, whose
first character is a minus, so the output keeps a leading minus even
though the very first character of the original input is the letter a:
an interior minus is promoted to a leading sign. -/
theorem sanitizeNumericInput_promotes_interior_minus :
    sanitizeNumericInput ['a', '-', '5'] = ['-', '5']
      ∧ List.head? ['a', '-', '5'] ≠ some '-' := by
  decide

/-- Rounding zero gives zero. -/
lemma roundToPrecision_zero (p : ℕ) : roundToPrecision 0 p = 0 := by
  simp only [roundToPrecision, jsRound]
  norm_num

/-- The raw costs of the break-even trial record sum to the marginal cost
0.01368 per invocation: a tenth of a CPU hour at 0.0895, half a GB-hour
at 0.00945, and one gateway API invocation at 0.005 per thousand. -/
lemma breakEven_rawSum (mid : ℕ) :
    (rawCostList (breakEvenUsage mid) BEDROCK_AGENTCORE_PRICING).sum
      = (mid : ℚ) * (1368/100000) := by
  have h1 : ¬ ((mid : ℚ) * 0.1 < 0) := not_lt.mpr (by positivity)
  have h2 : ¬ ((mid : ℚ) * 0.5 < 0) := not_lt.mpr (by positivity)
  have h3 : ¬ ((mid : ℚ) < 0) := not_lt.mpr (Nat.cast_nonneg mid)
  simp only [rawCostList, breakEvenUsage, BEDROCK_AGENTCORE_PRICING,
    calculateCpuCost, calculateMemoryCost, calculateApiInvocationsCost,
    calculateToolIndexingCost, UNITS_PER_THOUSAND, if_neg h1, if_neg h2,
    if_neg h3, List.sum_cons, List.sum_nil]
  norm_num
  ring

/-- The breakdown total of the break-even trial record is the rounded
marginal cost. -/
lemma breakEven_total (mid : ℕ) :
    (calculateCostBreakdown (breakEvenUsage mid)
        BEDROCK_AGENTCORE_PRICING).totalMonthlyCost
      = roundToPrecision ((mid : ℚ) * (1368/100000)) CURRENCY_PRECISION := by
  rw [totalMonthlyCost_eq, breakEven_rawSum]

/-- When the revenue per invocation exceeds the marginal cost, the profit
at any trial count stays above minus one cent: rounding the cost loses at
most half of the smallest rounding step. -/
lemma breakEven_profit_lb (rev : ℚ) (hrev : 1368/100000 < rev) (m : ℕ) :
    -(1/100) < (m : ℚ) * rev
      - roundToPrecision ((m : ℚ) * (1368/100000)) CURRENCY_PRECISION := by
  have h1 : roundToPrecision ((m : ℚ) * (1368/100000)) CURRENCY_PRECISION
      ≤ (m : ℚ) * (1368/100000) + 1/20000 := by
    simp only [CURRENCY_PRECISION]
    exact roundToPrecision_le _
  have h2 : (m : ℚ) * (1368/100000) ≤ (m : ℚ) * rev :=
    mul_le_mul_of_nonneg_left (le_of_lt hrev) (Nat.cast_nonneg m)
  linarith

/-- The break-even binary search from low bound zero always lands within
the interval and at a count whose profit is within a cent of zero,
provided the interval fits in the iteration budget and the revenue per
invocation exceeds the marginal cost. -/
lemma findBreakEvenLoop_spec (rev : ℚ) (hrev : 1368/100000 < rev) :
    ∀ fuel high : ℕ, high < 2 ^ fuel →
      findBreakEvenLoop 0 rev 0 0 high fuel ≤ high
        ∧ |(findBreakEvenLoop 0 rev 0 0 high fuel : ℚ) * rev
            - roundToPrecision ((findBreakEvenLoop 0 rev 0 0 high fuel : ℚ)
                * (1368/100000)) CURRENCY_PRECISION| < 1/100 := by
  intro fuel
  induction fuel with
  | zero =>
      intro high hhigh
      have h0 : high = 0 := by
        simpa using Nat.lt_one_iff.mp (by simpa using hhigh)
      subst h0
      simp only [findBreakEvenLoop]
      refine ⟨le_refl 0, ?_⟩
      simp [roundToPrecision_zero]
  | succ fuel ih =>
      intro high hhigh
      simp only [findBreakEvenLoop]
      by_cases hpos : (0 : ℕ) < high
      · rw [if_pos hpos]
        rw [breakEven_total ((0 + high) / 2)]
        by_cases habs :
            |(((0 + high) / 2 : ℕ) : ℚ) * rev
                - roundToPrecision ((((0 + high) / 2 : ℕ) : ℚ)
                    * (1368/100000)) CURRENCY_PRECISION - 0 - 0| < 1/100
        · rw [if_pos habs]
          refine ⟨by omega, ?_⟩
          simpa using habs
        · rw [if_neg habs]
          have hnlt : ¬ ((((0 + high) / 2 : ℕ) : ℚ) * rev
              - roundToPrecision ((((0 + high) / 2 : ℕ) : ℚ) * (1368/100000))
                  CURRENCY_PRECISION - 0 < 0) := by
            intro hlt
            have hlb := breakEven_profit_lb rev hrev ((0 + high) / 2)
            rw [sub_zero] at hlt
            have habs2 : |(((0 + high) / 2 : ℕ) : ℚ) * rev
                - roundToPrecision ((((0 + high) / 2 : ℕ) : ℚ) * (1368/100000))
                    CURRENCY_PRECISION - 0 - 0| < 1/100 := by
              rw [sub_zero, sub_zero, abs_of_neg hlt]
              linarith
            exact habs habs2
          rw [if_neg hnlt]
          have hmidlt : (0 + high) / 2 < 2 ^ fuel := by
            rw [pow_succ] at hhigh
            exact Nat.div_lt_iff_lt_mul (by norm_num) |>.mpr (by omega)
          obtain ⟨ih1, ih2⟩ := ih ((0 + high) / 2) hmidlt
          exact ⟨le_trans ih1 (by omega), ih2⟩
      · rw [if_neg hpos]
        refine ⟨Nat.zero_le high, ?_⟩
        simp [roundToPrecision_zero]

/-- C6.  With zero fixed costs and a revenue per invocation strictly
above the marginal per-unit cost 0.01368, the binary search of
calculateBreakEvenAnalysis over invocation counts in the interval up to
ten million, within its budget of fifty iterations, returns a count whose
profit — count times revenue minus the breakdown total minus the fixed
costs — is within 0.01 of zero. -/
theorem calculateBreakEvenAnalysis_breakEven (rev : ℚ)
    (hrev : 1368/100000 < rev) :
    (calculateBreakEvenAnalysis 0 rev).breakEvenInvocations ≤ 10000000
      ∧ |((calculateBreakEvenAnalysis 0 rev).breakEvenInvocations : ℚ) * rev
          - (calculateCostBreakdown
              (breakEvenUsage
                (calculateBreakEvenAnalysis 0 rev).breakEvenInvocations)
              BEDROCK_AGENTCORE_PRICING).totalMonthlyCost - 0| < 1/100 := by
  have h := findBreakEvenLoop_spec rev hrev 50 10000000 (by norm_num)
  simp only [calculateBreakEvenAnalysis, findBreakEvenPoint]
  rw [breakEven_total, sub_zero]
  exact h

/-- C6, witness at revenue one dollar per invocation. -/
theorem calculateBreakEvenAnalysis_breakEven_witness :
    (1368/100000 : ℚ) < 1
      ∧ ((calculateBreakEvenAnalysis 0 1).breakEvenInvocations ≤ 10000000
          ∧ |((calculateBreakEvenAnalysis 0 1).breakEvenInvocations : ℚ) * 1
              - (calculateCostBreakdown
                  (breakEvenUsage
                    (calculateBreakEvenAnalysis 0 1).breakEvenInvocations)
                  BEDROCK_AGENTCORE_PRICING).totalMonthlyCost - 0| < 1/100) :=
  ⟨by norm_num, calculateBreakEvenAnalysis_breakEven 1 (by norm_num)⟩

end AgentCorePricing
